import Mathlib

/-!
Verification development for the FinancyControl bank-statement extraction
pipeline (src/app.py).  The Python source is shallowly embedded below:

* Python strings are modelled as Lean `String`/`List Char`; string helpers
  (`str.upper`, `str.strip`, `re.sub(r"\s+", " ", ·)`, `unicodedata`
  accent-stripping) are modelled character-wise over the ASCII/Latin-1
  repertoire the program actually manipulates (Brazilian bank statements).
* Python `float` results of `parse_brl_amount` are modelled as exact
  rationals `ℚ`; the program only compares amounts against zero and stores
  them, so exact arithmetic is a faithful model of the float sign/zero
  behaviour used by the code.
* `datetime` values produced by `parse_date` are modelled by a calendar-date
  triple `PyDate` (the code never uses the time component).
* The pdfplumber / pytesseract library calls at the edge of
  `parse_transactions_from_pdf` are modelled as an oracle `PdfEnv` giving,
  for a fixed input blob, either the extraction result or a raised
  library-level error for each of the three extractors.
-/

/-- Python whitespace class used by `re.sub(r"\s+", " ", ·)` and `str.strip()`
(ASCII repertoire: space, tab, newline, carriage return, vertical tab,
form feed). -/
def pyIsSpace (c : Char) : Bool :=
  c == ' ' || c == '\t' || c == '\n' || c == '\r' || c == '\x0b' || c == '\x0c'

/-- Association-list lookup on characters (first match wins). -/
def lookupChar : List (Char × Char) → Char → Option Char
  | [], _ => none
  | (a, b) :: rest, c => if c = a then some b else lookupChar rest c

/-- Lower-to-upper case table modelling Python `str.upper()` on the ASCII
letters plus the accented Latin-1 letters that occur in Brazilian statements. -/
def upperTable : List (Char × Char) :=
  [('a','A'),('b','B'),('c','C'),('d','D'),('e','E'),('f','F'),('g','G'),
   ('h','H'),('i','I'),('j','J'),('k','K'),('l','L'),('m','M'),('n','N'),
   ('o','O'),('p','P'),('q','Q'),('r','R'),('s','S'),('t','T'),('u','U'),
   ('v','V'),('w','W'),('x','X'),('y','Y'),('z','Z'),
   ('á','Á'),('à','À'),('â','Â'),('ã','Ã'),('ä','Ä'),('ç','Ç'),('é','É'),
   ('è','È'),('ê','Ê'),('í','Í'),('ì','Ì'),('ó','Ó'),('ò','Ò'),('ô','Ô'),
   ('õ','Õ'),('ú','Ú'),('ù','Ù'),('ü','Ü')]

/-- Python `str.upper()` on one character (see `upperTable`). -/
def pyToUpper (c : Char) : Char :=
  match lookupChar upperTable c with
  | some u => u
  | none => c

/-- Accented-letter-to-base-letter table: the visible effect of
`unicodedata.normalize("NFD", ·)` followed by dropping combining marks
(`strip_accents` in src/app.py) on the Latin-1 letters used here. -/
def accentTable : List (Char × Char) :=
  [('Á','A'),('À','A'),('Â','A'),('Ã','A'),('Ä','A'),
   ('É','E'),('È','E'),('Ê','E'),('Ë','E'),
   ('Í','I'),('Ì','I'),('Î','I'),
   ('Ó','O'),('Ò','O'),('Ô','O'),('Õ','O'),('Ö','O'),
   ('Ú','U'),('Ù','U'),('Û','U'),('Ü','U'),('Ç','C'),
   ('á','a'),('à','a'),('â','a'),('ã','a'),('ä','a'),
   ('é','e'),('è','e'),('ê','e'),('ë','e'),
   ('í','i'),('ì','i'),('î','i'),
   ('ó','o'),('ò','o'),('ô','o'),('õ','o'),('ö','o'),
   ('ú','u'),('ù','u'),('û','u'),('ü','u'),('ç','c')]

/-- One character of `strip_accents` (src/app.py, lines 49-51): accented
letters decompose to base letter + combining mark and the mark is dropped;
bare combining marks (U+0300..U+036F) are dropped entirely. -/
def stripAccentChar (c : Char) : List Char :=
  match lookupChar accentTable c with
  | some b => [b]
  | none => if 0x300 ≤ c.toNat ∧ c.toNat ≤ 0x36F then [] else [c]

/-- `strip_accents` from src/app.py on a character list. -/
def stripAccentsL (l : List Char) : List Char :=
  (l.map stripAccentChar).flatten

/-- `re.sub(r"\s+", " ", ·)`: every maximal run of whitespace characters is
replaced by a single space. -/
def collapseWs : List Char → List Char
  | [] => []
  | [c] => if pyIsSpace c then [' '] else [c]
  | c :: d :: rest =>
    if pyIsSpace c then
      if pyIsSpace d then collapseWs (d :: rest)
      else ' ' :: collapseWs (d :: rest)
    else c :: collapseWs (d :: rest)

/-- Drop matching characters from the end of a list. -/
def dropEndWhile (p : Char → Bool) (l : List Char) : List Char :=
  ((l.reverse).dropWhile p).reverse

/-- Python `str.strip()` (whitespace from both ends). -/
def pyStripWs (l : List Char) : List Char :=
  dropEndWhile pyIsSpace (l.dropWhile pyIsSpace)

/-- Membership in Python's `.strip(" -:/")` character set. -/
def isSepChar (c : Char) : Bool :=
  c == ' ' || c == '-' || c == ':' || c == '/'

/-- Python `str.strip(" -:/")` used by `normalize_merchant`. -/
def stripSepChars (l : List Char) : List Char :=
  dropEndWhile isSepChar (l.dropWhile isSepChar)

/-- Python substring test `needle in hay`. -/
def listContains (hay needle : List Char) : Bool :=
  hay.tails.any (fun t => needle.isPrefixOf t)

/-- Join a list of character lists with single spaces, modelling
`" ".join(...)`. -/
def joinSpace : List (List Char) → List Char
  | [] => []
  | [x] => x
  | x :: rest => x ++ ' ' :: joinSpace rest

/-- Decimal digit accumulator for a digit list. -/
def digitsToNat (l : List Char) : Nat :=
  l.foldl (fun a c => 10 * a + (c.toNat - 48)) 0

/-- Python `float(txt)` on the plain decimal literals the program can feed it
(optional sign, integer digits, optional fraction), returning the exact value
as a rational; anything else raises `ValueError`, modelled as `none`.
Exotic float syntax (exponents, `inf`, `nan`, underscores) is not reachable
from the claims and is modelled as unparseable. Python's `float` strips
surrounding whitespace before parsing. -/
def pyFloat (l0 : List Char) : Option ℚ :=
  let l := pyStripWs l0
  let (neg, rest) :=
    match l with
    | '-' :: r => (true, r)
    | '+' :: r => (false, r)
    | r => (false, r)
  let intDigits := rest.takeWhile Char.isDigit
  let rest2 := rest.dropWhile Char.isDigit
  let value? : Option ℚ :=
    match rest2 with
    | [] =>
      if intDigits.isEmpty then none
      else some (mkRat (digitsToNat intDigits) 1)
    | '.' :: fr =>
      let fracDigits := fr.takeWhile Char.isDigit
      let rest3 := fr.dropWhile Char.isDigit
      if rest3.isEmpty = false then none
      else if intDigits.isEmpty && fracDigits.isEmpty then none
      else some (mkRat (digitsToNat intDigits * 10 ^ fracDigits.length +
                        digitsToNat fracDigits) (10 ^ fracDigits.length))
    | _ => none
  match value? with
  | none => none
  | some v => some (if neg then -v else v)

/-- Remove every occurrence of the two-character substring `R$`, modelling
`txt.replace("R$", "")`. -/
def removeRS : List Char → List Char
  | 'R' :: '$' :: rest => removeRS rest
  | c :: rest => c :: removeRS rest
  | [] => []

/-- `parse_brl_amount` (src/app.py, lines 115-129) on a character list:
strip, drop `R$`, record and remove any `-`, drop thousands dots, turn the
decimal comma into a dot, and parse; the sign is reapplied at the end. -/
def parse_brl_amountL (raw : List Char) : Option ℚ :=
  if raw.isEmpty then none
  else
    let txt := pyStripWs raw
    let txt := pyStripWs (removeRS txt)
    let isNegative := txt.any (fun c => c == '-')
    let txt := txt.filter (fun c => c ≠ '-')
    let txt := (txt.filter (fun c => c ≠ '.')).map (fun c => if c = ',' then '.' else c)
    match pyFloat txt with
    | none => none
    | some value => some (if isNegative then -value else value)

/-- `parse_brl_amount` on a Lean string. -/
def parse_brl_amount (raw : String) : Option ℚ :=
  parse_brl_amountL raw.toList

/-- Calendar date produced by `parse_date`; the `datetime` time-of-day
component is always midnight and never used, so only the date is modelled. -/
structure PyDate where
  year : Nat
  month : Nat
  day : Nat
deriving DecidableEq, Repr

/-- Proleptic-Gregorian leap-year test, as used by Python `datetime`. -/
def isLeapYear (y : Nat) : Bool :=
  y % 4 == 0 && (y % 100 != 0 || y % 400 == 0)

/-- Days in a month, as validated by the `datetime` constructor. -/
def daysInMonth (y m : Nat) : Nat :=
  if m = 2 then (if isLeapYear y then 29 else 28)
  else if m = 4 ∨ m = 6 ∨ m = 9 ∨ m = 11 then 30
  else 31

/-- Read a day field as CPython `_strptime` does for `%d`
(regex `3[01]|[12]\d|0[1-9]|[1-9]`, alternatives tried in that order). -/
def readDayField : List Char → Option (Nat × List Char)
  | c1 :: c2 :: rest =>
    if (c1 = '3' && (c2 = '0' || c2 = '1')) ||
       ((c1 = '1' || c1 = '2') && c2.isDigit) ||
       (c1 = '0' && ('1' ≤ c2 && c2 ≤ '9')) then
      some (digitsToNat [c1, c2], rest)
    else if '1' ≤ c1 && c1 ≤ '9' then some (digitsToNat [c1], c2 :: rest)
    else none
  | [c1] =>
    if '1' ≤ c1 && c1 ≤ '9' then some (digitsToNat [c1], []) else none
  | [] => none

/-- Read a month field as CPython `_strptime` does for `%m`
(regex `1[0-2]|0[1-9]|[1-9]`). -/
def readMonthField : List Char → Option (Nat × List Char)
  | c1 :: c2 :: rest =>
    if (c1 = '1' && ('0' ≤ c2 && c2 ≤ '2')) ||
       (c1 = '0' && ('1' ≤ c2 && c2 ≤ '9')) then
      some (digitsToNat [c1, c2], rest)
    else if '1' ≤ c1 && c1 ≤ '9' then some (digitsToNat [c1], c2 :: rest)
    else none
  | [c1] =>
    if '1' ≤ c1 && c1 ≤ '9' then some (digitsToNat [c1], []) else none
  | [] => none

/-- Read a `%Y` field: exactly four digits. -/
def readYear4Field : List Char → Option (Nat × List Char)
  | a :: b :: c :: d :: rest =>
    if a.isDigit && b.isDigit && c.isDigit && d.isDigit then
      some (digitsToNat [a, b, c, d], rest)
    else none
  | _ => none

/-- Read a `%y` field: exactly two digits, mapped to 2000-2068 / 1969-1999 as
CPython does. -/
def readYear2Field : List Char → Option (Nat × List Char)
  | a :: b :: rest =>
    if a.isDigit && b.isDigit then
      let v := digitsToNat [a, b]
      some (if v ≤ 68 then 2000 + v else 1900 + v, rest)
    else none
  | _ => none

/-- Expect a literal slash. -/
def expectSlash : List Char → Option (List Char)
  | '/' :: rest => some rest
  | _ => none

/-- `datetime.strptime(raw, "%d/%m/%Y")` (when `fourDigitYear`) or
`datetime.strptime(raw, "%d/%m/%y")`: field regexes, full-string match, then
the `datetime` constructor validates the day against the month length; a
failure anywhere is `ValueError`, modelled as `none`. -/
def strptimeDMY (l : List Char) (fourDigitYear : Bool) : Option PyDate := do
  let (d, r1) ← readDayField l
  let r2 ← expectSlash r1
  let (m, r3) ← readMonthField r2
  let r4 ← expectSlash r3
  let (y, r5) ← if fourDigitYear then readYear4Field r4 else readYear2Field r4
  if r5.isEmpty = false then none
  else if 1 ≤ y ∧ y ≤ 9999 ∧ d ≤ daysInMonth y m then some ⟨y, m, d⟩
  else none

/-- `parse_date` (src/app.py, lines 132-139) on a character list: strip, then
try `%d/%m/%Y` and fall back to `%d/%m/%y`; `None` when both fail. -/
def parse_dateL (raw : List Char) : Option PyDate :=
  let s := pyStripWs raw
  match strptimeDMY s true with
  | some d => some d
  | none => strptimeDMY s false

/-- `parse_date` on a Lean string. -/
def parse_date (raw : String) : Option PyDate :=
  parse_dateL raw.toList

/-- The `Transaction` dataclass (src/app.py, lines 39-46); `txn_type` is the
string `"credit"` or `"debit"` exactly as in the source, and `category`
defaults to `None`. -/
structure Transaction where
  date : PyDate
  description_full : String
  merchant_normalized : String
  txn_type : String
  amount : ℚ
  category : Option String := none
deriving DecidableEq, Repr

/-- `NORMALIZATION_PREFIXES` (src/app.py, lines 93-102), in source order. -/
def NORMALIZATION_PREFIXES : List String :=
  ["PIX ENVIADO",
   "PIX RECEBIDO",
   "PAGAMENTO DE BOLETO",
   "PAGAMENTO BOLETO",
   "PAGTO BOLETO",
   "CREDITO DE SALARIO",
   "DEBITO AUT.",
   "COMPRA CARTAO"]

/-- The first entry of `NORMALIZATION_PREFIXES` that the upper-cased text
starts with, if any (the `for`/`startswith` loop in `normalize_merchant`). -/
def findMatchingNormPrefix (upper : List Char) : Option (List Char) :=
  (NORMALIZATION_PREFIXES.map String.toList).find? (fun p => p.isPrefixOf upper)

/-- `normalize_merchant` (src/app.py, lines 105-112): collapse whitespace and
trim, upper-case, strip the first matching transaction-type marker together
with adjacent separator characters, and re-collapse whitespace. -/
def normalize_merchant (description : String) : String :=
  let text := pyStripWs (collapseWs description.toList)
  let upper := text.map pyToUpper
  match findMatchingNormPrefix upper with
  | some p => ⟨collapseWs (stripSepChars (upper.drop p.length))⟩
  | none => ⟨collapseWs upper⟩

/-- Python `abs` on the rational model of a float. -/
def pyAbs (q : ℚ) : ℚ := if q < 0 then -q else q

/-- The transaction-emission block shared verbatim by
`parse_transactions_from_tables` (lines 230-252) and
`parse_transactions_from_text_lines` (lines 312-334): normalize the raw
description, derive the merchant key, then append a debit `Transaction`
when the debit magnitude is non-zero (storing `abs(debit)`) followed by a
credit `Transaction` when the credit magnitude is non-zero (storing the
parsed credit value as is). -/
def emitTxns (date : PyDate) (descriptionRaw : List Char)
    (credit debit : Option ℚ) : List Transaction :=
  let description_full : String := ⟨pyStripWs (collapseWs descriptionRaw)⟩
  let merchant := normalize_merchant description_full
  (match debit with
   | some d =>
     if 0 < pyAbs d then
       [⟨date, description_full, merchant, "debit", pyAbs d, none⟩]
     else []
   | none => []) ++
  (match credit with
   | some c =>
     if 0 < pyAbs c then
       [⟨date, description_full, merchant, "credit", c, none⟩]
     else []
   | none => [])

/-- The four column roles looked up in the header row by
`parse_transactions_from_tables`. -/
inductive ColRole where
  | date
  | descr
  | credit
  | debit
deriving DecidableEq, Repr

/-- The substring that marks a header cell for a given role. -/
def roleNeedle : ColRole → String
  | .date => "DATA"
  | .descr => "DESCRI"
  | .credit => "CREDITO"
  | .debit => "DEBITO"

/-- Does the accent-stripped upper-cased header cell contain the role's
marker substring? -/
def roleTest (r : ColRole) (cell : String) : Bool :=
  listContains (stripAccentsL (cell.toList.map pyToUpper)) (roleNeedle r).toList

/-- The `if`/`elif` chain of the column-mapping loop (src/app.py, lines
191-201): the first role, in the fixed order date, description, credit,
debit, whose marker the cell contains. -/
def roleOf (cell : String) : Option ColRole :=
  if roleTest .date cell then some .date
  else if roleTest .descr cell then some .descr
  else if roleTest .credit cell then some .credit
  else if roleTest .debit cell then some .debit
  else none

/-- Overwrite one role's column index, modelling `col_map[key] = i`. -/
def setRole (m : ColRole → Option Nat) (r : ColRole) (i : Nat) :
    ColRole → Option Nat :=
  fun r' => if r' = r then some i else m r'

/-- One step of the column-mapping loop: run the `if`/`elif` chain on the
cell and store the index when a role matches. -/
def colMapStep (m : ColRole → Option Nat) (p : Nat × String) :
    ColRole → Option Nat :=
  match roleOf p.2 with
  | some r => setRole m r p.1
  | none => m

/-- The column map built by `for i, col in enumerate(header): ...`
(src/app.py, lines 190-201); a later matching cell overwrites an earlier
assignment exactly as the dict assignment does. -/
def buildColMap (header : List String) : ColRole → Option Nat :=
  header.enum.foldl colMapStep (fun _ => none)

/-- Header-row detection predicate (src/app.py, lines 179-184): the joined
upper-cased accent-stripped cells must contain "DATA", "DESCRI" and
"CREDITO". -/
def isHeaderRow (row : List String) : Bool :=
  let headerNorm := stripAccentsL (joinSpace (row.map (fun c => c.toList.map pyToUpper)))
  listContains headerNorm "DATA".toList &&
  listContains headerNorm "DESCRI".toList &&
  listContains headerNorm "CREDITO".toList

/-- One data row of the table parser up to the both-amounts-missing check
(src/app.py, lines 209-228): `none` means the row is skipped; otherwise the
parsed date, the raw description cell, and the two parsed amounts are
returned for the emission block. -/
def rowParse (iDate iDescr iCredit iDebit headerLen : Nat)
    (row : List String) : Option (PyDate × List Char × Option ℚ × Option ℚ) :=
  if row.length < headerLen then none
  else
    let dateRaw := row.getD iDate ""
    let descriptionRaw := row.getD iDescr ""
    let creditRaw := row.getD iCredit ""
    let debitRaw := row.getD iDebit ""
    if dateRaw.isEmpty || descriptionRaw.isEmpty then none
    else
      match parse_date dateRaw with
      | none => none
      | some date =>
        let credit := parse_brl_amount creditRaw
        let debit := parse_brl_amount debitRaw
        if credit = none ∧ debit = none then none
        else some (date, descriptionRaw.toList, credit, debit)

/-- Transactions contributed by one data row: the skip conditions of
`rowParse` followed by the emission block. -/
def tableRowTxns (iDate iDescr iCredit iDebit headerLen : Nat)
    (row : List String) : List Transaction :=
  match rowParse iDate iDescr iCredit iDebit headerLen row with
  | none => []
  | some (date, descriptionRaw, credit, debit) =>
    emitTxns date descriptionRaw credit debit

/-- `parse_transactions_from_tables` (src/app.py, lines 174-254): find the
header row, map the four required columns (bailing out with `[]` when the
header or a required column is missing), then process every later row in
order. -/
def parse_transactions_from_tables (tables : List (List String)) :
    List Transaction :=
  if tables.isEmpty then []
  else
    match tables.findIdx? isHeaderRow with
    | none => []
    | some headerRowIndex =>
      let header := tables.getD headerRowIndex []
      let colMap := buildColMap header
      match colMap .date, colMap .descr, colMap .credit, colMap .debit with
      | some iDate, some iDescr, some iCredit, some iDebit =>
        ((tables.drop (headerRowIndex + 1)).map
          (tableRowTxns iDate iDescr iCredit iDebit header.length)).flatten
      | _, _, _, _ => []

/-- `re.match(r"(\d{2}/\d{2}/\d{4})\s+(.*)", raw)`: a leading
two-digit/two-digit/four-digit date, at least one whitespace character, then
the rest of the line.  Returns the ten-character date token and the part
after the whitespace run. -/
def matchLeadingDate (l : List Char) : Option (List Char × List Char) :=
  match l with
  | d1 :: d2 :: s1 :: m1 :: m2 :: s2 :: y1 :: y2 :: y3 :: y4 :: rest =>
    if d1.isDigit && d2.isDigit && s1 == '/' && m1.isDigit && m2.isDigit &&
       s2 == '/' && y1.isDigit && y2.isDigit && y3.isDigit && y4.isDigit &&
       (match rest with
        | c :: _ => pyIsSpace c
        | [] => false) then
      some ([d1, d2, '/', m1, m2, '/', y1, y2, y3, y4],
            rest.dropWhile pyIsSpace)
    else none
  | _ => none

/-- The `(?:\.\d{3})*,\d{2}` tail of the money regex with the greedy-star
semantics of `re`: consume thousands groups as long as possible, then require
a comma and two digits.  (After any smaller number of groups the next
character is a dot, so the comma alternative of the backtracking search can
never fire; the failure is then final.) -/
def moneyTail : List Char → Option Nat
  | '.' :: d1 :: d2 :: d3 :: rest =>
    if d1.isDigit && d2.isDigit && d3.isDigit then
      match moneyTail rest with
      | some n => some (n + 4)
      | none => none
    else
      match '.' :: d1 :: d2 :: d3 :: rest with
      | ',' :: a :: b :: _ => if a.isDigit && b.isDigit then some 3 else none
      | _ => none
  | l =>
    match l with
    | ',' :: a :: b :: _ => if a.isDigit && b.isDigit then some 3 else none
    | _ => none

/-- Attempt the integer part `\d{1,3}` with exactly `k` digits, then the
tail. -/
def moneyIntAt (l : List Char) (k : Nat) : Option Nat :=
  let ds := l.take k
  if ds.length = k && ds.all Char.isDigit then
    match moneyTail (l.drop k) with
    | some n => some (n + k)
    | none => none
  else none

/-- Match `-?\d{1,3}(?:\.\d{3})*,\d{2}` at the head of the list, returning
the length of the match; the `\d{1,3}` is greedy, so three digits are tried
first, then two, then one. -/
def matchMoneyAt (l : List Char) : Option Nat :=
  let body := fun (l' : List Char) =>
    match moneyIntAt l' 3 with
    | some n => some n
    | none =>
      match moneyIntAt l' 2 with
      | some n => some n
      | none => moneyIntAt l' 1
  match l with
  | '-' :: rest =>
    match body rest with
    | some n => some (n + 1)
    | none => none
  | _ => body l

/-- `money_pattern.finditer(raw)`: scan left to right, emit each
non-overlapping match as a (start index, length) pair and resume after it.
The fuel argument is the remaining scan length. -/
def moneyScanAux : Nat → List Char → Nat → List (Nat × Nat)
  | 0, _, _ => []
  | _ + 1, [], _ => []
  | fuel + 1, c :: rest, i =>
    match matchMoneyAt (c :: rest) with
    | some n =>
      (i, n) :: moneyScanAux fuel (List.drop n (c :: rest)) (i + n)
    | none => moneyScanAux fuel rest (i + 1)

/-- All money-pattern matches of a line, in order. -/
def moneyScan (l : List Char) : List (Nat × Nat) :=
  moneyScanAux l.length l 0

/-- One line of the text-line parser up to the both-amounts-missing check
(src/app.py, lines 262-310): `none` means the line is skipped; otherwise the
parsed date, the raw description span, and the two parsed amounts are
returned for the emission block. -/
def lineParse (line : String) :
    Option (PyDate × List Char × Option ℚ × Option ℚ) :=
  let raw := pyStripWs line.toList
  if raw.isEmpty then none
  else
    match matchLeadingDate raw with
    | none => none
    | some (dateRaw, rest) =>
      match parse_dateL dateRaw with
      | none => none
      | some date =>
        let upperNormRest := stripAccentsL (rest.map pyToUpper)
        if ("DATA ".toList).isPrefixOf upperNormRest then none
        else
          let moneyMatches := moneyScan raw
          if moneyMatches.length < 2 then none
          else
            let firstMoneyStart := (moneyMatches.headD (0, 0)).1
            let descriptionRaw := pyStripWs ((raw.take firstMoneyStart).drop 10)
            let moneyValues := moneyMatches.map
              (fun p => (raw.drop p.1).take p.2)
            let pair : List Char × List Char :=
              if 3 ≤ moneyValues.length then
                (moneyValues.getD (moneyValues.length - 3) [],
                 moneyValues.getD (moneyValues.length - 2) [])
              else
                let candidate := moneyValues.getD (moneyValues.length - 2) []
                let descUpper := stripAccentsL (descriptionRaw.map pyToUpper)
                if listContains descUpper "CREDITO".toList ||
                   listContains descUpper "PIX RECEBIDO".toList ||
                   listContains descUpper "DEPOSITO".toList then
                  (candidate, [])
                else ([], candidate)
            let creditRaw := pair.1
            let debitRaw := pair.2
            let credit := if creditRaw.isEmpty then none
                          else parse_brl_amountL creditRaw
            let debit := if debitRaw.isEmpty then none
                         else parse_brl_amountL debitRaw
            if credit = none ∧ debit = none then none
            else some (date, descriptionRaw, credit, debit)

/-- Transactions contributed by one text line: the skip conditions of
`lineParse` followed by the emission block. -/
def lineTxns (line : String) : List Transaction :=
  match lineParse line with
  | none => []
  | some (date, descriptionRaw, credit, debit) =>
    emitTxns date descriptionRaw credit debit

/-- `parse_transactions_from_text_lines` (src/app.py, lines 257-336):
process every line in order, appending each line's transactions. -/
def parse_transactions_from_text_lines (lines : List String) :
    List Transaction :=
  (lines.map lineTxns).flatten

/-- Library-level extraction effects for one fixed input blob: for each of
the three extractors, either the extracted data or a raised
pdfplumber/pytesseract-level error.  `extract_text_with_ocr` returning `[]`
when OCR is unavailable is an `Except.ok []` value. -/
structure PdfEnv where
  tablesResult : Except String (List (List String))
  textResult : Except String (List String)
  ocrResult : Except String (List String)
deriving Repr

/-- `extract_tables_from_pdf` (src/app.py, lines 142-151) viewed through the
oracle: the pdfplumber table rows, or the library error it raises. -/
def extract_tables_from_pdf (env : PdfEnv) :
    Except String (List (List String)) :=
  env.tablesResult

/-- `extract_text_lines_from_pdf` (src/app.py, lines 154-160) viewed through
the oracle. -/
def extract_text_lines_from_pdf (env : PdfEnv) :
    Except String (List String) :=
  env.textResult

/-- `extract_text_with_ocr` (src/app.py, lines 163-171) viewed through the
oracle. -/
def extract_text_with_ocr (env : PdfEnv) : Except String (List String) :=
  env.ocrResult

/-- `parse_transactions_from_pdf` (src/app.py, lines 339-353): three ordered
attempts, each short-circuiting on the first non-empty transaction list.
The function body contains no try/except, so an error raised by an extractor
propagates to the caller, which the `Except` monad models by returning
`Except.error`. -/
def parse_transactions_from_pdf (env : PdfEnv) :
    Except String (List Transaction) := do
  let tables ← extract_tables_from_pdf env
  let transactions := parse_transactions_from_tables tables
  if transactions.isEmpty = false then
    return transactions
  else
    let lines ← extract_text_lines_from_pdf env
    let transactions := parse_transactions_from_text_lines lines
    if transactions.isEmpty = false then
      return transactions
    else
      let ocrLines ← extract_text_with_ocr env
      if ocrLines.isEmpty then
        return []
      else
        return parse_transactions_from_text_lines ocrLines

/-- The two representative statement lines fed to the text-line parser by
`run_smoke_test` (src/app.py, lines 654-666) and by the specification's
end-to-end seed scenario. -/
def seedLines : List String :=
  ["15/12/2025 CREDITO DE SALARIO ACME LTDA        000000    000000      1.350,00      0,00   1.350,00",
   "17/12/2025 PIX ENVIADO STRIPE BRASIL SOLUCOES DE 000000  000000      0,00      119,90  -2.636,87"]

/-- The most recent (not the first) header-cell index stored for a role:
the reference value for the overwriting dict assignment in the
column-mapping loop. -/
def lastRoleIdx : List (Nat × String) → ColRole → Option Nat
  | [], _ => none
  | p :: rest, r =>
    match lastRoleIdx rest r with
    | some i => some i
    | none => if roleOf p.2 = some r then some p.1 else none

/-- Positivity of the Python `abs` model at non-zero arguments. -/
theorem pyAbs_pos {q : ℚ} (h : q ≠ 0) : 0 < pyAbs q := by
  unfold pyAbs
  split_ifs with h'
  · linarith
  · exact lt_of_le_of_ne (not_lt.mp h') (Ne.symm h)

/-- The column-map fold realizes `lastRoleIdx` over any starting map. -/
theorem foldl_colMapStep (ps : List (Nat × String)) :
    ∀ (m : ColRole → Option Nat) (r : ColRole),
      (ps.foldl colMapStep m) r =
        match lastRoleIdx ps r with
        | some i => some i
        | none => m r := by
  induction ps with
  | nil => intro m r; rfl
  | cons p rest ih =>
    intro m r
    rw [List.foldl_cons, ih]
    cases h : lastRoleIdx rest r with
    | some i => simp [lastRoleIdx, h]
    | none =>
      simp only [lastRoleIdx, h]
      cases hr : roleOf p.2 with
      | none => simp [colMapStep, hr]
      | some r0 =>
        by_cases hrr : r = r0
        · subst hrr; simp [colMapStep, hr, setRole]
        · simp [colMapStep, hr, setRole, hrr, Ne.symm hrr]

/-- C8: `parse_brl_amount("1.350,00")` is 1350.00,
`parse_brl_amount("-2.636,87")` is -2636.87, and both `""` and `"abc"`
yield `None`; malformed input produces `None` (the embedded function is
total) rather than an error. -/
theorem c8_parse_brl_amount_examples :
    parse_brl_amount "1.350,00" = some 1350 ∧
    parse_brl_amount "-2.636,87" = some (-(mkRat 263687 100)) ∧
    parse_brl_amount "" = none ∧
    parse_brl_amount "abc" = none :=
  ⟨by decide, by decide, by decide, by decide⟩

/-- C3: `parse_date` maps "15/12/2025" and "15/12/25" to 2025-12-15 and
"31/02/2025" (invalid day/month combination) to `None`; in general it tries
the four-digit-year format first, falls back to the two-digit-year format,
and returns `None` exactly when both fail. -/
theorem c3_parse_date_behavior :
    parse_date "15/12/2025" = some ⟨2025, 12, 15⟩ ∧
    parse_date "15/12/25" = some ⟨2025, 12, 15⟩ ∧
    parse_date "31/02/2025" = none ∧
    ∀ raw : String,
      parse_date raw =
        (strptimeDMY (pyStripWs raw.toList) true).orElse
          (fun _ => strptimeDMY (pyStripWs raw.toList) false) := by
  refine ⟨by decide, by decide, by decide, ?_⟩
  intro raw
  cases h : strptimeDMY (pyStripWs raw.data) true with
  | none => simp [parse_date, parse_dateL, h, Option.orElse]
  | some d => simp [parse_date, parse_dateL, h, Option.orElse]

set_option maxRecDepth 10000 in
/-- C1: evaluation at the failing input.  A table row whose credit cell
holds the negative amount "-1,00" makes `parse_transactions_from_tables`
emit a credit `Transaction` whose stored `amount` is -1.00 < 0: the code
stores the signed parsed credit value (only the debit branch applies
`abs`), contradicting the claimed strictly-positive-amount invariant. -/
theorem c1_negative_credit_transaction :
    parse_transactions_from_tables
        [["DATA", "DESCRICAO", "CREDITO", "DEBITO"],
         ["15/12/2025", "LOJA", "-1,00", ""]] =
      [⟨⟨2025, 12, 15⟩, "LOJA", "LOJA", "credit", -1, none⟩] ∧
    (-1 : ℚ) < 0 :=
  ⟨by decide, by decide⟩

set_option maxRecDepth 30000 in
/-- C4 counterexample: on the two seed lines the emitted transactions do
not carry the claimed merchant keys "ACME LTDA" and
"STRIPE BRASIL SOLUCOES DE" in either order, because the description span
runs from the date to the first money match and therefore retains the
"000000" placeholder columns. -/
theorem c4_seed_merchants_counterexample :
    (parse_transactions_from_text_lines seedLines).map
        Transaction.merchant_normalized ≠
      ["ACME LTDA", "STRIPE BRASIL SOLUCOES DE"] ∧
    (parse_transactions_from_text_lines seedLines).map
        Transaction.merchant_normalized ≠
      ["STRIPE BRASIL SOLUCOES DE", "ACME LTDA"] :=
  ⟨by decide, by decide⟩

set_option maxRecDepth 30000 in
/-- C4 amended: on the two seed lines the parser returns exactly two
transactions, a credit of 1350.00 dated 2025-12-15 and a debit of 119.90
dated 2025-12-17; the placeholder columns between the description and the
monetary columns are retained in `description_full` and hence in
`merchant_normalized` ("ACME LTDA 000000 000000" and
"STRIPE BRASIL SOLUCOES DE 000000 000000"). -/
theorem c4_amended_seed_output :
    parse_transactions_from_text_lines seedLines =
      [⟨⟨2025, 12, 15⟩, "CREDITO DE SALARIO ACME LTDA 000000 000000",
        "ACME LTDA 000000 000000", "credit", 1350, none⟩,
       ⟨⟨2025, 12, 17⟩,
        "PIX ENVIADO STRIPE BRASIL SOLUCOES DE 000000 000000",
        "STRIPE BRASIL SOLUCOES DE 000000 000000", "debit",
        mkRat 1199 10, none⟩] := by
  decide

set_option maxRecDepth 10000 in
/-- C9 counterexample: with two header cells containing "DATA" (indices 0
and 4), the column map assigns the date role to index 4, not to the first
matching cell at index 0 — the dict assignment lets the last match win. -/
theorem c9_first_match_counterexample :
    buildColMap ["DATA", "DESCRICAO", "CREDITO", "DEBITO", "DATA FIM"]
        ColRole.date = some 4 ∧
    buildColMap ["DATA", "DESCRICAO", "CREDITO", "DEBITO", "DATA FIM"]
        ColRole.date ≠ some 0 :=
  ⟨by decide, by decide⟩

/-- C9 amended: in the column mapping, the index stored for each role is
that of the last header cell matching the role (later matches overwrite
earlier ones), and each individual cell is assigned at most one role,
namely the first of date, description, credit, debit (in that fixed order)
whose marker substring it contains. -/
theorem c9_amended_column_mapping :
    (∀ (header : List String) (r : ColRole),
        buildColMap header r = lastRoleIdx header.enum r) ∧
    (∀ cell : String,
        roleOf cell =
          [ColRole.date, ColRole.descr, ColRole.credit, ColRole.debit].find?
            (fun r => roleTest r cell)) := by
  constructor
  · intro header r
    unfold buildColMap
    rw [foldl_colMapStep]
    cases h : lastRoleIdx header.enum r <;> simp [h]
  · intro cell
    unfold roleOf
    cases h1 : roleTest ColRole.date cell <;>
      cases h2 : roleTest ColRole.descr cell <;>
        cases h3 : roleTest ColRole.credit cell <;>
          cases h4 : roleTest ColRole.debit cell <;>
            simp [List.find?, h1, h2, h3, h4]

/-- C5: any consumed table row or text line whose credit and debit cells
both parse to non-zero values emits exactly two transactions sharing the
same date, `description_full` and `merchant_normalized`, a debit (with the
absolute parsed debit value) followed by a credit (with the parsed credit
value). -/
theorem c5_compound_rows_two_txns :
    (∀ (iDate iDescr iCredit iDebit headerLen : Nat) (row : List String)
        (dt : PyDate) (draw : List Char) (c d : ℚ),
        rowParse iDate iDescr iCredit iDebit headerLen row =
            some (dt, draw, some c, some d) →
        c ≠ 0 → d ≠ 0 →
        tableRowTxns iDate iDescr iCredit iDebit headerLen row =
          [⟨dt, ⟨pyStripWs (collapseWs draw)⟩,
            normalize_merchant ⟨pyStripWs (collapseWs draw)⟩,
            "debit", pyAbs d, none⟩,
           ⟨dt, ⟨pyStripWs (collapseWs draw)⟩,
            normalize_merchant ⟨pyStripWs (collapseWs draw)⟩,
            "credit", c, none⟩]) ∧
    (∀ (line : String) (dt : PyDate) (draw : List Char) (c d : ℚ),
        lineParse line = some (dt, draw, some c, some d) →
        c ≠ 0 → d ≠ 0 →
        lineTxns line =
          [⟨dt, ⟨pyStripWs (collapseWs draw)⟩,
            normalize_merchant ⟨pyStripWs (collapseWs draw)⟩,
            "debit", pyAbs d, none⟩,
           ⟨dt, ⟨pyStripWs (collapseWs draw)⟩,
            normalize_merchant ⟨pyStripWs (collapseWs draw)⟩,
            "credit", c, none⟩]) := by
  constructor
  · intro iDate iDescr iCredit iDebit headerLen row dt draw c d h1 hc hd
    unfold tableRowTxns
    rw [h1]
    simp [emitTxns, pyAbs_pos hc, pyAbs_pos hd]
  · intro line dt draw c d h1 hc hd
    unfold lineTxns
    rw [h1]
    simp [emitTxns, pyAbs_pos hc, pyAbs_pos hd]

set_option maxRecDepth 10000 in
/-- Witness for C5 at a concrete compound table row and text line. -/
theorem c5_compound_rows_two_txns_witness :
    tableRowTxns 0 1 2 3 4 ["15/12/2025", "LOJA", "1,00", "2,00"] =
      [⟨⟨2025, 12, 15⟩, "LOJA", "LOJA", "debit", 2, none⟩,
       ⟨⟨2025, 12, 15⟩, "LOJA", "LOJA", "credit", 1, none⟩] ∧
    lineTxns "15/12/2025 LOJA 1,00 2,00 3,00" =
      [⟨⟨2025, 12, 15⟩, "LOJA", "LOJA", "debit", 2, none⟩,
       ⟨⟨2025, 12, 15⟩, "LOJA", "LOJA", "credit", 1, none⟩] :=
  ⟨(c5_compound_rows_two_txns.1 0 1 2 3 4
      ["15/12/2025", "LOJA", "1,00", "2,00"] ⟨2025, 12, 15⟩ "LOJA".toList
      1 2 (by decide) (by decide) (by decide)).trans (by decide),
   (c5_compound_rows_two_txns.2 "15/12/2025 LOJA 1,00 2,00 3,00"
      ⟨2025, 12, 15⟩ "LOJA".toList 1 2
      (by decide) (by decide) (by decide)).trans (by decide)⟩

/-- C10: whenever a consumed row or line yields both a debit and a credit
transaction, the debit is appended immediately before the credit. -/
theorem c10_debit_precedes_credit :
    (∀ (iDate iDescr iCredit iDebit headerLen : Nat) (row : List String)
        (dt : PyDate) (draw : List Char) (c d : ℚ),
        rowParse iDate iDescr iCredit iDebit headerLen row =
            some (dt, draw, some c, some d) →
        c ≠ 0 → d ≠ 0 →
        (tableRowTxns iDate iDescr iCredit iDebit headerLen row).map
            Transaction.txn_type = ["debit", "credit"]) ∧
    (∀ (line : String) (dt : PyDate) (draw : List Char) (c d : ℚ),
        lineParse line = some (dt, draw, some c, some d) →
        c ≠ 0 → d ≠ 0 →
        (lineTxns line).map Transaction.txn_type = ["debit", "credit"]) := by
  constructor
  · intro iDate iDescr iCredit iDebit headerLen row dt draw c d h1 hc hd
    unfold tableRowTxns
    rw [h1]
    simp [emitTxns, pyAbs_pos hc, pyAbs_pos hd]
  · intro line dt draw c d h1 hc hd
    unfold lineTxns
    rw [h1]
    simp [emitTxns, pyAbs_pos hc, pyAbs_pos hd]

set_option maxRecDepth 10000 in
/-- Witness for C10 at a concrete compound table row and text line. -/
theorem c10_debit_precedes_credit_witness :
    (tableRowTxns 0 1 2 3 4 ["15/12/2025", "LOJA", "1,00", "2,00"]).map
        Transaction.txn_type = ["debit", "credit"] ∧
    (lineTxns "15/12/2025 LOJA 1,00 2,00 3,00").map
        Transaction.txn_type = ["debit", "credit"] :=
  ⟨c10_debit_precedes_credit.1 0 1 2 3 4
      ["15/12/2025", "LOJA", "1,00", "2,00"] ⟨2025, 12, 15⟩ "LOJA".toList
      1 2 (by decide) (by decide) (by decide),
   c10_debit_precedes_credit.2 "15/12/2025 LOJA 1,00 2,00 3,00"
      ⟨2025, 12, 15⟩ "LOJA".toList 1 2
      (by decide) (by decide) (by decide)⟩

/-- C6: whenever the table attempt produces at least one transaction, the
orchestrator returns exactly that list, whatever the text-line and OCR
extractions would return (including errors): the later attempts cannot
affect the result. -/
theorem c6_table_attempt_short_circuits :
    ∀ (tables : List (List String)) (textR ocrR : Except String (List String)),
      parse_transactions_from_tables tables ≠ [] →
      parse_transactions_from_pdf ⟨Except.ok tables, textR, ocrR⟩ =
        Except.ok (parse_transactions_from_tables tables) := by
  intro tables textR ocrR h
  simp [parse_transactions_from_pdf, extract_tables_from_pdf,
    bind, Except.bind, pure, Except.pure, h]

set_option maxRecDepth 10000 in
/-- Witness for C6: a concrete well-formed table short-circuits the
pipeline even when both later extractors would raise. -/
theorem c6_table_attempt_short_circuits_witness :
    parse_transactions_from_tables
        [["DATA", "DESCRICAO", "CREDITO", "DEBITO"],
         ["15/12/2025", "LOJA", "1,00", "2,00"]] ≠ [] ∧
    parse_transactions_from_pdf
        ⟨Except.ok [["DATA", "DESCRICAO", "CREDITO", "DEBITO"],
                    ["15/12/2025", "LOJA", "1,00", "2,00"]],
         Except.error "text layer failed", Except.error "ocr failed"⟩ =
      Except.ok (parse_transactions_from_tables
        [["DATA", "DESCRICAO", "CREDITO", "DEBITO"],
         ["15/12/2025", "LOJA", "1,00", "2,00"]]) :=
  ⟨by decide, c6_table_attempt_short_circuits _ _ _ (by decide)⟩

set_option maxRecDepth 10000 in
/-- C2 counterexample: when the table extractor raises (corrupt document),
`parse_transactions_from_pdf` returns that error instead of treating the
attempt as empty, even though the text-line attempt would have produced a
transaction: the error propagates out of the orchestrator. -/
theorem c2_error_propagates_counterexample :
    parse_transactions_from_pdf
        ⟨Except.error "corrupt PDF",
         Except.ok ["15/12/2025 LOJA 1,00 2,00 3,00"], Except.ok []⟩ =
      Except.error "corrupt PDF" ∧
    parse_transactions_from_text_lines ["15/12/2025 LOJA 1,00 2,00 3,00"] ≠
      [] :=
  ⟨rfl, by decide⟩

/-- C2 amended: an extraction-library-level error raised during any of the
three attempts propagates out of `parse_transactions_from_pdf` unchanged
(aborting the remaining attempts); the function body contains no handler —
errors are only caught at the batch-upload boundary. -/
theorem c2_amended_errors_propagate :
    (∀ (env : PdfEnv) (e : String),
        env.tablesResult = Except.error e →
        parse_transactions_from_pdf env = Except.error e) ∧
    (∀ (env : PdfEnv) (tables : List (List String)) (e : String),
        env.tablesResult = Except.ok tables →
        parse_transactions_from_tables tables = [] →
        env.textResult = Except.error e →
        parse_transactions_from_pdf env = Except.error e) ∧
    (∀ (env : PdfEnv) (tables : List (List String))
        (lines : List String) (e : String),
        env.tablesResult = Except.ok tables →
        parse_transactions_from_tables tables = [] →
        env.textResult = Except.ok lines →
        parse_transactions_from_text_lines lines = [] →
        env.ocrResult = Except.error e →
        parse_transactions_from_pdf env = Except.error e) := by
  refine ⟨?_, ?_, ?_⟩
  · intro env e h1
    obtain ⟨tr, txt, ocr⟩ := env
    simp only at h1
    subst h1
    rfl
  · intro env tables e h1 h2 h3
    obtain ⟨tr, txt, ocr⟩ := env
    simp only at h1 h3
    subst h1; subst h3
    simp [parse_transactions_from_pdf, extract_tables_from_pdf,
      extract_text_lines_from_pdf, bind, Except.bind, pure, Except.pure, h2]
  · intro env tables lines e h1 h2 h3 h4 h5
    obtain ⟨tr, txt, ocr⟩ := env
    simp only at h1 h3 h5
    subst h1; subst h3; subst h5
    simp [parse_transactions_from_pdf, extract_tables_from_pdf,
      extract_text_lines_from_pdf, extract_text_with_ocr,
      bind, Except.bind, pure, Except.pure, h2, h4]

/-- Witness for C2 amended at three concrete environments. -/
theorem c2_amended_errors_propagate_witness :
    parse_transactions_from_pdf
        ⟨Except.error "e1", Except.ok [], Except.ok []⟩ =
      Except.error "e1" ∧
    parse_transactions_from_pdf
        ⟨Except.ok [], Except.error "e2", Except.ok []⟩ =
      Except.error "e2" ∧
    parse_transactions_from_pdf
        ⟨Except.ok [], Except.ok [], Except.error "e3"⟩ =
      Except.error "e3" :=
  ⟨c2_amended_errors_propagate.1 _ "e1" rfl,
   c2_amended_errors_propagate.2.1 _ [] "e2" rfl rfl rfl,
   c2_amended_errors_propagate.2.2 _ [] [] "e3" rfl rfl rfl rfl rfl⟩

/-- Case-table sanity: no upper-cased output is itself a key of the table,
and neither keys nor values are whitespace. -/
theorem upperTable_facts :
    ∀ p ∈ upperTable, lookupChar upperTable p.2 = none ∧
      pyIsSpace p.1 = false ∧ pyIsSpace p.2 = false := by decide

/-- A successful character lookup comes from a table entry. -/
theorem lookupChar_mem : ∀ {ps : List (Char × Char)} {c u : Char},
    lookupChar ps c = some u → (c, u) ∈ ps := by
  intro ps
  induction ps with
  | nil => intro c u h; simp [lookupChar] at h
  | cons p rest ih =>
    intro c u h
    obtain ⟨a, b⟩ := p
    by_cases hc : c = a
    · subst hc
      simp [lookupChar] at h
      subst h
      exact List.mem_cons_self _ _
    · simp [lookupChar, hc] at h
      exact List.mem_cons_of_mem _ (ih h)

/-- Python `str.upper()` is idempotent character-wise. -/
theorem pyToUpper_idem (c : Char) : pyToUpper (pyToUpper c) = pyToUpper c := by
  cases h : lookupChar upperTable c with
  | none => simp [pyToUpper, h]
  | some u =>
    have hfact := upperTable_facts _ (lookupChar_mem h)
    simp [pyToUpper, h, hfact.1]

/-- Upper-casing does not change whether a character is whitespace. -/
theorem pyIsSpace_pyToUpper (c : Char) :
    pyIsSpace (pyToUpper c) = pyIsSpace c := by
  cases h : lookupChar upperTable c with
  | none => simp [pyToUpper, h]
  | some u =>
    have hfact := upperTable_facts _ (lookupChar_mem h)
    simp [pyToUpper, h, hfact.2.1, hfact.2.2]

/-- Head of the whitespace-collapsed list: a space when the source starts
with whitespace, otherwise the original first character. -/
theorem collapseWs_head? (c : Char) (r : List Char) :
    (collapseWs (c :: r)).head? = some (if pyIsSpace c then ' ' else c) := by
  induction r generalizing c with
  | nil => by_cases h : pyIsSpace c <;> simp [collapseWs, h]
  | cons d r' ih =>
    by_cases hc : pyIsSpace c
    · by_cases hd : pyIsSpace d
      · rw [show collapseWs (c :: d :: r') = collapseWs (d :: r') from by
          simp [collapseWs, hc, hd]]
        rw [ih d]
        simp [hc, hd]
      · simp [collapseWs, hc, hd]
    · simp [collapseWs, hc]

/-- Collapsing a non-empty list yields a non-empty list. -/
theorem collapseWs_ne_nil {l : List Char} (h : l ≠ []) : collapseWs l ≠ [] := by
  cases l with
  | nil => exact absurd rfl h
  | cons c r =>
    intro hnil
    have hh := collapseWs_head? c r
    rw [hnil] at hh
    simp at hh

/-- Auxiliary: `getLast?` ignores a cons onto a non-empty list. -/
theorem getLast?_cons_of_ne_nil (x : Char) {ys : List Char} (h : ys ≠ []) :
    (x :: ys).getLast? = ys.getLast? := by
  cases ys with
  | nil => exact absurd rfl h
  | cons z zs => exact List.getLast?_cons_cons

/-- Last element of the whitespace-collapsed list: a space when the source
ends with whitespace, otherwise the original last character. -/
theorem collapseWs_getLast? (c : Char) (r : List Char) :
    (collapseWs (c :: r)).getLast? =
      ((c :: r).getLast?).map (fun x => if pyIsSpace x then ' ' else x) := by
  induction r generalizing c with
  | nil => by_cases h : pyIsSpace c <;> simp [collapseWs, h]
  | cons d r' ih =>
    have hlast : (c :: d :: r').getLast? = (d :: r').getLast? :=
      List.getLast?_cons_cons
    by_cases hc : pyIsSpace c
    · by_cases hd : pyIsSpace d
      · rw [show collapseWs (c :: d :: r') = collapseWs (d :: r') from by
          simp [collapseWs, hc, hd]]
        rw [ih d, hlast]
      · rw [show collapseWs (c :: d :: r') = ' ' :: collapseWs (d :: r') from by
          simp [collapseWs, hc, hd]]
        rw [hlast, ← ih d]
        exact getLast?_cons_of_ne_nil ' ' (collapseWs_ne_nil (by simp))
    · rw [show collapseWs (c :: d :: r') = c :: collapseWs (d :: r') from by
        simp [collapseWs, hc]]
      rw [hlast, ← ih d]
      exact getLast?_cons_of_ne_nil c (collapseWs_ne_nil (by simp))

/-- Every character of a collapsed list is a space or a non-whitespace
character of the source. -/
theorem mem_collapseWs (c : Char) : ∀ l : List Char,
    c ∈ collapseWs l → c = ' ' ∨ (c ∈ l ∧ pyIsSpace c = false) := by
  intro l
  induction l with
  | nil => intro h; simp [collapseWs] at h
  | cons d r ih =>
    intro h
    cases r with
    | nil =>
      cases hd : pyIsSpace d with
      | true => simp [collapseWs, hd] at h; left; exact h
      | false =>
        simp [collapseWs, hd] at h
        right
        exact ⟨by simp [h], by rw [h]; exact hd⟩
    | cons e r' =>
      cases hd : pyIsSpace d with
      | true =>
        cases he : pyIsSpace e with
        | true =>
          rw [show collapseWs (d :: e :: r') = collapseWs (e :: r') from by
            simp [collapseWs, hd, he]] at h
          rcases ih h with h1 | ⟨h2, h3⟩
          · left; exact h1
          · right; exact ⟨List.mem_cons_of_mem _ h2, h3⟩
        | false =>
          rw [show collapseWs (d :: e :: r') = ' ' :: collapseWs (e :: r') from by
            simp [collapseWs, hd, he]] at h
          rcases List.mem_cons.mp h with h1 | h1
          · left; exact h1
          · rcases ih h1 with h2 | ⟨h3, h4⟩
            · left; exact h2
            · right; exact ⟨List.mem_cons_of_mem _ h3, h4⟩
      | false =>
        rw [show collapseWs (d :: e :: r') = d :: collapseWs (e :: r') from by
          simp [collapseWs, hd]] at h
        rcases List.mem_cons.mp h with h1 | h1
        · right; exact ⟨by simp [h1], by rw [h1]; exact hd⟩
        · rcases ih h1 with h2 | ⟨h3, h4⟩
          · left; exact h2
          · right; exact ⟨List.mem_cons_of_mem _ h3, h4⟩

/-- Adjacent characters of a collapsed list are never both whitespace. -/
theorem noAdjWs_collapseWs : ∀ l : List Char,
    (collapseWs l).Chain'
      (fun a b => ¬(pyIsSpace a = true ∧ pyIsSpace b = true)) := by
  intro l
  induction l with
  | nil => simp [collapseWs]
  | cons d r ih =>
    cases r with
    | nil => cases hd : pyIsSpace d <;> simp [collapseWs, hd]
    | cons e r' =>
      cases hd : pyIsSpace d with
      | false =>
        rw [show collapseWs (d :: e :: r') = d :: collapseWs (e :: r') from by
          simp [collapseWs, hd]]
        rw [List.chain'_cons']
        refine ⟨?_, ih⟩
        intro y _
        simp [hd]
      | true =>
        cases he : pyIsSpace e with
        | true =>
          rw [show collapseWs (d :: e :: r') = collapseWs (e :: r') from by
            simp [collapseWs, hd, he]]
          exact ih
        | false =>
          rw [show collapseWs (d :: e :: r') = ' ' :: collapseWs (e :: r') from by
            simp [collapseWs, hd, he]]
          rw [List.chain'_cons']
          refine ⟨?_, ih⟩
          intro y hy
          rw [collapseWs_head? e r'] at hy
          simp [he] at hy
          subst hy
          simp [he]

/-- A list whose whitespace characters are all single spaces separated by
non-whitespace is a fixed point of collapsing. -/
theorem collapseWs_eq_self : ∀ {l : List Char},
    (∀ c ∈ l, pyIsSpace c = true → c = ' ') →
    l.Chain' (fun a b => ¬(pyIsSpace a = true ∧ pyIsSpace b = true)) →
    collapseWs l = l := by
  intro l
  induction l with
  | nil => intro _ _; rfl
  | cons d r ih =>
    intro h1 h2
    cases r with
    | nil =>
      cases hd : pyIsSpace d with
      | true =>
        have hd' : d = ' ' := h1 d (by simp) hd
        simp [collapseWs, hd, hd']
      | false => simp [collapseWs, hd]
    | cons e r' =>
      have hchain := List.chain'_cons.mp h2
      have htail : collapseWs (e :: r') = e :: r' :=
        ih (fun c hc hs => h1 c (List.mem_cons_of_mem _ hc) hs) hchain.2
      cases hd : pyIsSpace d with
      | false =>
        rw [show collapseWs (d :: e :: r') = d :: collapseWs (e :: r') from by
          simp [collapseWs, hd]]
        rw [htail]
      | true =>
        have hd' : d = ' ' := h1 d (by simp) hd
        have he : pyIsSpace e = false := by
          cases he' : pyIsSpace e with
          | false => rfl
          | true => exact absurd ⟨hd, he'⟩ hchain.1
        rw [show collapseWs (d :: e :: r') = ' ' :: collapseWs (e :: r') from by
          simp [collapseWs, hd, he]]
        rw [htail, hd']

/-- Collapsing whitespace is idempotent. -/
theorem collapseWs_idem (l : List Char) :
    collapseWs (collapseWs l) = collapseWs l :=
  collapseWs_eq_self
    (fun c hc hs => by
      rcases mem_collapseWs c l hc with h | ⟨_, h2⟩
      · exact h
      · rw [h2] at hs; cases hs)
    (noAdjWs_collapseWs l)

/-- The head surviving a `dropWhile` does not satisfy the predicate. -/
theorem dropWhile_head_false (p : Char → Bool) :
    ∀ (l : List Char) (c : Char), (l.dropWhile p).head? = some c →
      p c = false := by
  intro l
  induction l with
  | nil => intro c h; simp [List.dropWhile] at h
  | cons d r ih =>
    intro c h
    cases hd : p d with
    | true =>
      rw [List.dropWhile_cons] at h
      simp [hd] at h
      exact ih c h
    | false =>
      rw [List.dropWhile_cons] at h
      simp [hd] at h
      rw [← h]
      exact hd

/-- `dropWhile` is the identity when the head does not satisfy the
predicate. -/
theorem dropWhile_eq_self_of_head (p : Char → Bool) (l : List Char)
    (h : ∀ c, l.head? = some c → p c = false) : l.dropWhile p = l := by
  cases l with
  | nil => rfl
  | cons d r => simp [List.dropWhile_cons, h d rfl]

/-- Dropping from the end yields an initial segment of the list. -/
theorem dropEndWhile_front (p : Char → Bool) (l : List Char) :
    dropEndWhile p l <+: l := by
  have h1 : l.reverse.dropWhile p <:+ l.reverse := List.dropWhile_suffix p
  have h2 := (@List.reverse_suffix Char ((l.reverse.dropWhile p).reverse) l).mp
  unfold dropEndWhile
  exact h2 (by rw [List.reverse_reverse]; exact h1)

/-- A non-empty initial segment shares the head of the full list. -/
theorem head?_eq_of_front {l₁ l₂ : List Char} (h : l₁ <+: l₂)
    (hne : l₁ ≠ []) : l₂.head? = l₁.head? := by
  obtain ⟨t, rfl⟩ := h
  cases l₁ with
  | nil => exact absurd rfl hne
  | cons a r => rfl

/-- Head of a strip-both-ends composite never satisfies the predicate. -/
theorem dropBoth_head (p : Char → Bool) (l : List Char) :
    ∀ c, (dropEndWhile p (l.dropWhile p)).head? = some c → p c = false := by
  intro c h
  have hne : dropEndWhile p (l.dropWhile p) ≠ [] := by
    intro hn; rw [hn] at h; simp at h
  have hh := head?_eq_of_front (dropEndWhile_front p (l.dropWhile p)) hne
  rw [h] at hh
  exact dropWhile_head_false p l c hh

/-- Last element of a strip-both-ends composite never satisfies the
predicate. -/
theorem dropBoth_getLast (p : Char → Bool) (l : List Char) :
    ∀ c, (dropEndWhile p (l.dropWhile p)).reverse.head? = some c →
      p c = false := by
  intro c h
  unfold dropEndWhile at h
  rw [List.reverse_reverse] at h
  exact dropWhile_head_false p (l.dropWhile p).reverse c h

/-- Mapping a function that fixes every member is the identity. -/
theorem map_id_of_mem {f : Char → Char} : ∀ {l : List Char},
    (∀ c ∈ l, f c = c) → l.map f = l := by
  intro l
  induction l with
  | nil => intro _; rfl
  | cons d r ih =>
    intro h
    rw [List.map_cons, h d (by simp),
      ih (fun c hc => h c (List.mem_cons_of_mem _ hc))]

/-- A head equation yields membership. -/
theorem mem_of_head?_eq {l : List Char} {c : Char} (h : l.head? = some c) :
    c ∈ l := by
  cases l with
  | nil => simp at h
  | cons d r =>
    simp at h
    simp [h]

/-- Characters of `str.strip()` output come from the input. -/
theorem mem_of_pyStripWs {l : List Char} {c : Char} (h : c ∈ pyStripWs l) :
    c ∈ l := by
  have h1 : c ∈ l.dropWhile pyIsSpace :=
    (dropEndWhile_front pyIsSpace (l.dropWhile pyIsSpace)).subset h
  exact (List.dropWhile_suffix pyIsSpace).subset h1

/-- Characters of `str.strip(" -:/")` output come from the input. -/
theorem mem_of_stripSepChars {l : List Char} {c : Char}
    (h : c ∈ stripSepChars l) : c ∈ l := by
  have h1 : c ∈ l.dropWhile isSepChar :=
    (dropEndWhile_front isSepChar (l.dropWhile isSepChar)).subset h
  exact (List.dropWhile_suffix isSepChar).subset h1

/-- Collapsing the collapse of any list whose head, last element, and
members are already in normalized shape (no boundary whitespace, upper-case
fixed points) is stable under one more normalization round: the collapse is
idempotent, stripping is the identity, and upper-casing is the identity. -/
theorem canon_parts (V : List Char)
    (vb : ∀ c, V.head? = some c → pyIsSpace c = false)
    (vc : ∀ c, V.reverse.head? = some c → pyIsSpace c = false)
    (vd : ∀ c ∈ V, pyToUpper c = c) :
    collapseWs (collapseWs V) = collapseWs V ∧
    pyStripWs (collapseWs V) = collapseWs V ∧
    (collapseWs V).map pyToUpper = collapseWs V := by
  refine ⟨collapseWs_idem V, ?_, ?_⟩
  · cases V with
    | nil => rfl
    | cons v rest =>
      have hv : pyIsSpace v = false := vb v rfl
      have hhead : (collapseWs (v :: rest)).head? = some v := by
        rw [collapseWs_head?]
        simp [hv]
      obtain ⟨vL, hL⟩ : ∃ vL, (v :: rest).getLast? = some vL := by
        cases hrev : (v :: rest).reverse with
        | nil => simp at hrev
        | cons w wrest =>
          exact ⟨w, by rw [← List.head?_reverse, hrev]; rfl⟩
      have hvL : pyIsSpace vL = false :=
        vc vL (by rw [List.head?_reverse]; exact hL)
      have hlast : (collapseWs (v :: rest)).getLast? = some vL := by
        rw [collapseWs_getLast?, hL]
        simp [hvL]
      show dropEndWhile pyIsSpace
        ((collapseWs (v :: rest)).dropWhile pyIsSpace) = _
      rw [dropWhile_eq_self_of_head pyIsSpace _ (fun c hc => by
        rw [hhead] at hc
        injection hc with h
        rw [← h]
        exact hv)]
      show ((collapseWs (v :: rest)).reverse.dropWhile pyIsSpace).reverse = _
      rw [dropWhile_eq_self_of_head pyIsSpace _ (fun c hc => by
        rw [List.head?_reverse, hlast] at hc
        injection hc with h
        rw [← h]
        exact hvL)]
      exact List.reverse_reverse _
  · exact map_id_of_mem (fun c hc => by
      rcases mem_collapseWs c V hc with h | ⟨h1, _⟩
      · rw [h]; decide
      · exact vd c h1)

/-- Output shape of `normalize_merchant`: the produced string is a fixed
point of whitespace collapsing, of whitespace stripping, and of
upper-casing. -/
theorem normalize_merchant_canon (x : String) :
    collapseWs (normalize_merchant x).toList = (normalize_merchant x).toList ∧
    pyStripWs (normalize_merchant x).toList = (normalize_merchant x).toList ∧
    (normalize_merchant x).toList.map pyToUpper =
      (normalize_merchant x).toList := by
  have hC : ∀ t ∈ collapseWs x.toList, pyIsSpace t = true → t = ' ' := by
    intro t ht hs
    rcases mem_collapseWs t x.toList ht with h | ⟨_, h2⟩
    · exact h
    · rw [h2] at hs; cases hs
  have ua : ∀ c ∈ (pyStripWs (collapseWs x.toList)).map pyToUpper,
      pyIsSpace c = true → c = ' ' := by
    intro c hc hs
    rcases List.mem_map.mp hc with ⟨t, ht, rfl⟩
    have hts : pyIsSpace t = true := by
      rw [← pyIsSpace_pyToUpper t]; exact hs
    have ht' : t = ' ' := hC t (mem_of_pyStripWs ht) hts
    rw [ht']
    decide
  have ub : ∀ c,
      ((pyStripWs (collapseWs x.toList)).map pyToUpper).head? = some c →
      pyIsSpace c = false := by
    intro c h
    rw [List.head?_map] at h
    cases hT : (pyStripWs (collapseWs x.toList)).head? with
    | none => rw [hT] at h; cases h
    | some t =>
      rw [hT] at h
      simp at h
      rw [← h, pyIsSpace_pyToUpper]
      exact dropBoth_head pyIsSpace (collapseWs x.toList) t hT
  have uc : ∀ c,
      ((pyStripWs (collapseWs x.toList)).map pyToUpper).reverse.head? =
        some c →
      pyIsSpace c = false := by
    intro c h
    rw [← List.map_reverse, List.head?_map] at h
    cases hT : (pyStripWs (collapseWs x.toList)).reverse.head? with
    | none => rw [hT] at h; cases h
    | some t =>
      rw [hT] at h
      simp at h
      rw [← h, pyIsSpace_pyToUpper]
      exact dropBoth_getLast pyIsSpace (collapseWs x.toList) t hT
  have ud : ∀ c ∈ (pyStripWs (collapseWs x.toList)).map pyToUpper,
      pyToUpper c = c := by
    intro c hc
    rcases List.mem_map.mp hc with ⟨t, _, rfl⟩
    exact pyToUpper_idem t
  cases hf : findMatchingNormPrefix
      ((pyStripWs (collapseWs x.toList)).map pyToUpper) with
  | none =>
    have hx : normalize_merchant x =
        ⟨collapseWs ((pyStripWs (collapseWs x.toList)).map pyToUpper)⟩ := by
      simp only [normalize_merchant]
      rw [hf]
    rw [hx]
    exact canon_parts _ ub uc ud
  | some p =>
    have vb : ∀ c,
        (stripSepChars (((pyStripWs (collapseWs x.toList)).map
          pyToUpper).drop p.length)).head? = some c →
        pyIsSpace c = false := by
      intro c h
      have hsep : isSepChar c = false := dropBoth_head isSepChar _ c h
      cases hw : pyIsSpace c with
      | false => rfl
      | true =>
        have hcU : c ∈ (pyStripWs (collapseWs x.toList)).map pyToUpper :=
          List.mem_of_mem_drop (mem_of_stripSepChars (mem_of_head?_eq h))
        have h' : c = ' ' := ua c hcU hw
        rw [h'] at hsep
        exact absurd hsep (by decide)
    have vc : ∀ c,
        (stripSepChars (((pyStripWs (collapseWs x.toList)).map
          pyToUpper).drop p.length)).reverse.head? = some c →
        pyIsSpace c = false := by
      intro c h
      have hsep : isSepChar c = false := dropBoth_getLast isSepChar _ c h
      cases hw : pyIsSpace c with
      | false => rfl
      | true =>
        have hcmem := List.mem_reverse.mp (mem_of_head?_eq h)
        have hcU : c ∈ (pyStripWs (collapseWs x.toList)).map pyToUpper :=
          List.mem_of_mem_drop (mem_of_stripSepChars hcmem)
        have h' : c = ' ' := ua c hcU hw
        rw [h'] at hsep
        exact absurd hsep (by decide)
    have vd : ∀ c ∈ stripSepChars (((pyStripWs (collapseWs x.toList)).map
        pyToUpper).drop p.length), pyToUpper c = c := by
      intro c hc
      exact ud c (List.mem_of_mem_drop (mem_of_stripSepChars hc))
    have hx : normalize_merchant x =
        ⟨collapseWs (stripSepChars (((pyStripWs (collapseWs x.toList)).map
          pyToUpper).drop p.length))⟩ := by
      simp only [normalize_merchant]
      rw [hf]
    rw [hx]
    exact canon_parts _ vb vc vd

/-- A string in normalized shape on which no transaction-type marker fires
is a fixed point of `normalize_merchant`. -/
theorem normalize_merchant_eq_self {s : String}
    (h1 : collapseWs s.toList = s.toList)
    (h2 : pyStripWs s.toList = s.toList)
    (h3 : s.toList.map pyToUpper = s.toList)
    (h4 : findMatchingNormPrefix s.toList = none) :
    normalize_merchant s = s := by
  simp only [normalize_merchant]
  rw [h1, h2, h3, h4]
  show (⟨collapseWs s.toList⟩ : String) = s
  rw [h1]
  cases s with
  | mk d => rfl

set_option maxRecDepth 10000 in
/-- C7 counterexample: `normalize_merchant` is not idempotent — on
"PIX ENVIADO PIX ENVIADO X" one application yields "PIX ENVIADO X", whose
renormalization strips the marker again, yielding "X". -/
theorem c7_idempotence_counterexample :
    normalize_merchant (normalize_merchant "PIX ENVIADO PIX ENVIADO X") ≠
      normalize_merchant "PIX ENVIADO PIX ENVIADO X" := by decide

/-- C7 amended: `normalize_merchant` is idempotent on every input whose
normalized form does not itself start with one of the
`NORMALIZATION_PREFIXES` (when it does, a second application strips
further); and `normalize_merchant("PIX ENVIADO STRIPE BRASIL")` is
"STRIPE BRASIL". -/
theorem c7_amended_conditional_idempotence :
    (∀ x : String,
        findMatchingNormPrefix (normalize_merchant x).toList = none →
        normalize_merchant (normalize_merchant x) = normalize_merchant x) ∧
    normalize_merchant "PIX ENVIADO STRIPE BRASIL" = "STRIPE BRASIL" := by
  constructor
  · intro x h
    obtain ⟨h1, h2, h3⟩ := normalize_merchant_canon x
    exact normalize_merchant_eq_self h1 h2 h3 h
  · decide

set_option maxRecDepth 10000 in
/-- Witness for C7 amended at the specification's own example input. -/
theorem c7_amended_conditional_idempotence_witness :
    findMatchingNormPrefix
        (normalize_merchant "PIX ENVIADO STRIPE BRASIL").toList = none ∧
    normalize_merchant (normalize_merchant "PIX ENVIADO STRIPE BRASIL") =
      normalize_merchant "PIX ENVIADO STRIPE BRASIL" :=
  ⟨by decide, c7_amended_conditional_idempotence.1 _ (by decide)⟩

